import Mathlib

/-!
Verification of the FinWise backend authentication subsystem.

This file gives a shallow embedding of the auth data model and of the
operations in `src/services/auth/token.service.ts`,
`src/services/auth/jwt.service.ts` and `src/controllers/auth.controller.ts`,
and proves the spec's claims about them.

Modelling conventions:
* The opaque strings produced by cryptographic primitives (JWTs signed by
  `jsonwebtoken`, Argon2 hashes, SHA-256 hex digests from node `crypto`) are
  modelled symbolically by the inductive type `Val`: a signed JWT is a
  constructor carrying exactly the data the library embeds (secret, issuer,
  audience, payload, expiry), and `sha256` is a free constructor, so digest
  collision-freeness and one-wayness become constructor injectivity and
  disjointness.  The crypto libraries are external collaborators; everything
  else is translated from the repository source.
* The Prisma store is a record of lists, one per table; `findUnique` /
  `findFirst` become `List.find?`, `create` appends, `update` / `updateMany`
  map over the list, and `$transaction` either returns the fully-updated
  store or leaves it untouched (Prisma rolls back on a thrown error).
* Wall-clock reads (`new Date()`, `Date.now()`) become an explicit `now : Nat`
  (milliseconds); `randomUUID()` becomes an explicit fresh-id argument.
-/

namespace FinWise

/-- Symbolic model of the opaque strings handled by the auth code: plain
strings, signed access/refresh/reset JWTs (`jsonwebtoken`), Argon2 password
hashes, and SHA-256 hex digests (`crypto.createHash("sha256")`). -/
inductive Val where
  | str : String → Val
  | accessJwt : (secret iss aud userId email role : String) → (exp : Nat) → Val
  | refreshJwt : (secret iss aud userId tokenId : String) → (exp : Nat) → Val
  | resetJwt : (secret iss aud userId email : String) → (exp : Nat) → Val
  | argon2 : String → Val
  | sha256 : Val → Val
deriving DecidableEq, Repr

/-- `role` enum of the Prisma schema (`User.role`). -/
inductive Role where
  | PARENT
  | CHILD
deriving DecidableEq, Repr

/-- `provider` enum of the Prisma schema (`OAuthAccount.provider`). -/
inductive Provider where
  | GOOGLE
  | APPLE
deriving DecidableEq, Repr

/-- `status` enum of the Prisma schema (`VerificationRequest.status`). -/
inductive VerificationStatus where
  | PENDING
  | APPROVED
  | REJECTED
deriving DecidableEq, Repr

/-! ## jwt.service.ts -/

/-- Default access-token secret (`jwt.service.ts` constructor). -/
def accessSecret : String := "change-this-secret"

/-- Default refresh-token secret (`jwt.service.ts` constructor). -/
def refreshSecret : String := "change-this-refresh-secret"

/-- Issuer claim used on every token (`jwt.service.ts`). -/
def jwtIssuer : String := "finwise-api"

/-- Audience claim used on every token (`jwt.service.ts`). -/
def jwtAudience : String := "finwise-app"

/-- Access-token TTL: 15 minutes in milliseconds (`JWT_ACCESS_TTL` default). -/
def accessTtlMs : Nat := 15 * 60 * 1000

/-- Refresh-token TTL: 7 days in milliseconds (`JWT_REFRESH_TTL` default,
parsed by `parseTtl`). -/
def refreshTtlMs : Nat := 7 * 24 * 60 * 60 * 1000

structure AccessTokenPayload where
  userId : String
  email : String
  role : String
deriving DecidableEq, Repr

structure RefreshTokenPayload where
  userId : String
  tokenId : String
deriving DecidableEq, Repr

/-- `JwtService.generateAccessToken`: sign `{userId, email, role}` with the
access secret, issuer, audience and a 15-minute expiry. -/
def generateAccessToken (now : Nat) (p : AccessTokenPayload) : Val :=
  .accessJwt accessSecret jwtIssuer jwtAudience p.userId p.email p.role (now + accessTtlMs)

/-- `JwtService.generateRefreshToken`: sign `{userId, tokenId}` with the
refresh secret, issuer, audience and a 7-day expiry. -/
def generateRefreshToken (now : Nat) (p : RefreshTokenPayload) : Val :=
  .refreshJwt refreshSecret jwtIssuer jwtAudience p.userId p.tokenId (now + refreshTtlMs)

/-- Errors thrown by `jsonwebtoken.verify`: bad signature / issuer / audience
(`JsonWebTokenError`) or an expired token (`TokenExpiredError`). -/
inductive JwtError where
  | invalidJwt
  | expiredJwt
deriving DecidableEq, Repr

/-- `JwtService.verifyRefreshToken`: `jwt.verify` with the refresh secret,
issuer and audience; a token is expired once its `exp` claim is in the past. -/
def verifyRefreshToken (now : Nat) (t : Val) : Except JwtError RefreshTokenPayload :=
  match t with
  | .refreshJwt sec iss aud uid tid exp =>
      if sec = refreshSecret ∧ iss = jwtIssuer ∧ aud = jwtAudience then
        if exp < now then .error .expiredJwt
        else .ok ⟨uid, tid⟩
      else .error .invalidJwt
  | _ => .error .invalidJwt

/-- `JwtService.hashToken`: SHA-256 hex digest of the raw token. -/
def hashToken (t : Val) : Val := .sha256 t

/-- `JwtService.getRefreshTokenExpiration`: `Date.now()` plus the parsed
refresh TTL. -/
def getRefreshTokenExpiration (now : Nat) : Nat := now + refreshTtlMs

/-! ## Data model (Prisma schema rows used by the auth subsystem) -/

structure User where
  id : String
  email : String
  name : String
  passwordHash : Option Val
  role : Role
  createdAt : Nat
  deletedAt : Option Nat
deriving DecidableEq, Repr

structure RefreshTokenRecord where
  id : String
  userId : String
  tokenHash : Val
  expiresAt : Nat
  revokedAt : Option Nat
deriving DecidableEq, Repr

structure OAuthAccount where
  provider : Provider
  providerId : String
  userId : String
deriving DecidableEq, Repr

structure VerificationRequest where
  id : String
  userId : String
  role : Role
  status : VerificationStatus
  idImageUrl : Option String
  createdAt : Nat
deriving DecidableEq, Repr

structure ParentProfile where
  userId : String
  country : String
  numberOfChildren : Nat
  monthlyIncomeBase : Int
  monthlyRentBase : Option Int
  monthlyLoansBase : Option Int
  otherNotes : Option String
deriving DecidableEq, Repr

/-- The persistent store: one list per Prisma table touched by the auth
subsystem. -/
structure DB where
  users : List User
  refreshTokens : List RefreshTokenRecord
  oauthAccounts : List OAuthAccount
  verificationRequests : List VerificationRequest
  parentProfiles : List ParentProfile
deriving DecidableEq, Repr

/-- `prisma.user.findUnique({ where: { id } })`. -/
def findUserById (db : DB) (uid : String) : Option User :=
  db.users.find? (fun u => decide (u.id = uid))

/-- `prisma.refreshToken.findUnique({ where: { tokenHash } })`. -/
def findRefreshByHash (db : DB) (h : Val) : Option RefreshTokenRecord :=
  db.refreshTokens.find? (fun r => decide (r.tokenHash = h))

/-- `prisma.oAuthAccount.findUnique({ where: { provider_providerId } })`. -/
def findOAuthAccount (db : DB) (prov : Provider) (sub : String) : Option OAuthAccount :=
  db.oauthAccounts.find? (fun a => decide (a.provider = prov ∧ a.providerId = sub))

/-! ## token.service.ts -/

structure TokenPair where
  accessToken : Val
  refreshToken : Val
deriving DecidableEq, Repr

/-- `TokenService.generateTokenPair` (token.service.ts:14-42): mint a fresh
`tokenId`, sign an access and a refresh token, and persist a record holding
the SHA-256 digest of the refresh token together with its expiry.  The fresh
`randomUUID()` is the explicit argument `tokenId`. -/
def generateTokenPair (db : DB) (now : Nat) (tokenId userId email : String)
    (role : Role) : TokenPair × DB :=
  let accessToken := generateAccessToken now
    ⟨userId, email, match role with | .PARENT => "PARENT" | .CHILD => "CHILD"⟩
  let refreshToken := generateRefreshToken now ⟨userId, tokenId⟩
  let tokenHash := hashToken refreshToken
  let expiresAt := getRefreshTokenExpiration now
  let stored : RefreshTokenRecord := ⟨tokenId, userId, tokenHash, expiresAt, none⟩
  (⟨accessToken, refreshToken⟩, { db with refreshTokens := db.refreshTokens ++ [stored] })

/-- The distinct failures of `TokenService.refreshTokens`, one per `throw`
site (plus the two `jsonwebtoken` failures propagated unchanged from
`verifyRefreshToken`). -/
inductive RefreshError where
  | jwtInvalid
  | jwtExpired
  | invalidToken
  | revoked
  | expired
  | userDeleted
deriving DecidableEq, Repr

def JwtError.toRefreshError : JwtError → RefreshError
  | .invalidJwt => .jwtInvalid
  | .expiredJwt => .jwtExpired

/-- The `findUnique({ where: { tokenHash }, include: { user } })` result:
the stored record joined with its owning user row. -/
structure StoredTokenView where
  record : RefreshTokenRecord
  user : User
deriving DecidableEq, Repr

/-- The token lookup with the `include: { user }` join.  The foreign key from
`RefreshToken.userId` to `User.id` guarantees the user row exists; a missing
user is mapped to `none` (dead branch under that invariant). -/
def refreshLookup (db : DB) (h : Val) : Option StoredTokenView :=
  (findRefreshByHash db h).bind
    (fun r => (findUserById db r.userId).map (fun u => ⟨r, u⟩))

/-- The read/validation phase of `TokenService.refreshTokens`
(token.service.ts:48-81): verify the JWT, look the record up by digest, and
fail in order on a missing record, a revoked record, a past expiry, or a
soft-deleted owning user. -/
def refreshValidate (db : DB) (now : Nat) (t : Val) : Except RefreshError StoredTokenView :=
  match verifyRefreshToken now t with
  | .error e => .error e.toRefreshError
  | .ok _ =>
      match refreshLookup db (hashToken t) with
      | none => .error .invalidToken
      | some v =>
          if v.record.revokedAt.isSome then .error .revoked
          else if v.record.expiresAt < now then .error .expired
          else if v.user.deletedAt.isSome then .error .userDeleted
          else .ok v

/-- `prisma.refreshToken.update({ where: { id }, data: { revokedAt: new Date() } })`
(token.service.ts:84-87).  Note the `where` clause names only the record id:
the write carries no "currently unrevoked" condition. -/
def revokeById (db : DB) (now : Nat) (id : String) : DB :=
  let f := fun r : RefreshTokenRecord =>
    if r.id = id then { r with revokedAt := some now } else r
  { db with refreshTokens := db.refreshTokens.map f }

/-- The write phase of `TokenService.refreshTokens` (token.service.ts:83-94):
revoke the stored record by id, then issue a brand-new pair for the owning
user. -/
def refreshCommit (db : DB) (now : Nat) (freshTokenId : String) (v : StoredTokenView) :
    TokenPair × DB :=
  generateTokenPair (revokeById db now v.record.id) now freshTokenId v.user.id v.user.email v.user.role

/-- `TokenService.refreshTokens` (token.service.ts:47-95): the validation
phase followed by the revoke-and-reissue phase. -/
def refreshTokens (db : DB) (now : Nat) (freshTokenId : String) (t : Val) :
    Except RefreshError (TokenPair × DB) :=
  (refreshValidate db now t).map (refreshCommit db now freshTokenId)

/-- `TokenService.revokeRefreshToken` (token.service.ts:100-107):
`updateMany({ where: { tokenHash }, data: { revokedAt: new Date() } })`;
matching zero rows is not an error. -/
def revokeRefreshToken (db : DB) (now : Nat) (t : Val) : DB :=
  let f := fun r : RefreshTokenRecord =>
    if r.tokenHash = hashToken t then { r with revokedAt := some now } else r
  { db with refreshTokens := db.refreshTokens.map f }

/-- `TokenService.revokeAllUserTokens` (token.service.ts:112-120). -/
def revokeAllUserTokens (db : DB) (now : Nat) (uid : String) : DB :=
  let f := fun r : RefreshTokenRecord =>
    if r.userId = uid ∧ r.revokedAt = none then { r with revokedAt := some now } else r
  { db with refreshTokens := db.refreshTokens.map f }

/-- Interleaved execution of two concurrent `refreshTokens` calls presenting
the same token, in the schedule where both read/validation phases run against
the initial store before either write phase commits.  Each call is the
`refreshValidate` / `refreshCommit` split proved definitionally equal to
`refreshTokens` in sequence. -/
def twoConcurrentRefresh (db : DB) (now : Nat) (tid1 tid2 : String) (t : Val) :
    Except RefreshError TokenPair × Except RefreshError TokenPair × DB :=
  match refreshValidate db now t, refreshValidate db now t with
  | .ok v1, .ok v2 =>
      let r1 := refreshCommit db now tid1 v1
      let r2 := refreshCommit r1.2 now tid2 v2
      (.ok r1.1, .ok r2.1, r2.2)
  | .ok v1, .error e2 =>
      let r1 := refreshCommit db now tid1 v1
      (.ok r1.1, .error e2, r1.2)
  | .error e1, .ok v2 =>
      let r2 := refreshCommit db now tid2 v2
      (.error e1, .ok r2.1, r2.2)
  | .error e1, .error e2 => (.error e1, .error e2, db)

/-! ## auth.controller.ts -/

/-- A validated signup body: the two branches of the `signupSchema`
discriminated union in `auth.validator.ts`. -/
inductive SignupData where
  | parent (name email password country : String) (numberOfChildren : Nat)
      (monthlyIncomeBase : Int) (monthlyRentBase monthlyLoansBase : Option Int)
      (otherNotes : Option String)
  | child (name email password : String)
deriving DecidableEq, Repr

def SignupData.role : SignupData → Role
  | .parent .. => .PARENT
  | .child .. => .CHILD

def SignupData.name : SignupData → String
  | .parent n .. => n
  | .child n _ _ => n

def SignupData.email : SignupData → String
  | .parent _ e .. => e
  | .child _ e _ => e

def SignupData.password : SignupData → String
  | .parent _ _ p .. => p
  | .child _ _ p => p

/-- `PasswordService.hash`: Argon2id with the fixed cost parameters.  The
Argon2 library is external; the hash is modelled as the `argon2` constructor
applied to the password. -/
def passwordServiceHash (password : String) : Val := .argon2 password

/-- Observable side effects of a controller run, in execution order.  Used to
state which steps (hashing, uploading, row writes, mailer calls) happened
before an exit. -/
inductive Effect where
  | hashPassword
  | uploadFile
  | dbWrite
  | emailSent
deriving DecidableEq, Repr

/-- The `data` object of a successful auth response: the public user fields,
the verification status, and the token pair. -/
structure AuthSuccessBody where
  userId : String
  email : String
  name : String
  role : Role
  verificationStatus : VerificationStatus
  accessToken : Val
  refreshToken : Val
deriving DecidableEq, Repr

/-- Outcome of `AuthController.signup`: `successResponse(res, ..., 201)` or an
`errors.*` response with its status and code (utils/response.ts). -/
inductive SignupResult where
  | success (status : Nat) (body : AuthSuccessBody)
  | failure (status : Nat) (code message : String)
deriving DecidableEq, Repr

/-- The `prisma.$transaction` body of `AuthController.signup`
(auth.controller.ts:86-131): create the User, its VerificationRequest
(status PENDING), and — for PARENT — the ParentProfile.  The `fail*` flags
model a store-level failure (unique-constraint violation, lost connection)
thrown by the corresponding `create`; Prisma then rolls the whole
transaction back, so the caller keeps the original store. -/
def signupTx (db : DB) (d : SignupData) (pwHash : Val) (idImageUrl : Option String)
    (now : Nat) (newUserId newVrId : String) (failUser failVR failPP : Bool) :
    Except Unit (DB × User × VerificationRequest) :=
  if failUser then .error () else
  let user : User := ⟨newUserId, d.email, d.name, some pwHash, d.role, now, none⟩
  if failVR then .error () else
  let vr : VerificationRequest := ⟨newVrId, newUserId, d.role, .PENDING, idImageUrl, now⟩
  match d with
  | .parent _ _ _ country numberOfChildren income rent loans notes =>
      if failPP then .error () else
      let pp : ParentProfile := ⟨newUserId, country, numberOfChildren, income, rent, loans, notes⟩
      .ok ({ db with
              users := db.users ++ [user],
              verificationRequests := db.verificationRequests ++ [vr],
              parentProfiles := db.parentProfiles ++ [pp] }, user, vr)
  | .child _ _ _ =>
      .ok ({ db with
              users := db.users ++ [user],
              verificationRequests := db.verificationRequests ++ [vr] }, user, vr)

/-- `AuthController.signup` (auth.controller.ts:29-188), from a validated
body onward: duplicate-email check, PARENT image requirement, password hash,
optional upload via the external storage adapter (`uploadResult` is its
outcome; a thrown upload error reaches the catch-all and surfaces as 500),
the atomic transaction, token issuance, and welcome/admin mails.  Fresh
`randomUUID()` values and the request clock are explicit arguments. -/
def signup (db : DB) (d : SignupData) (hasFile : Bool) (now : Nat)
    (newUserId newVrId newTokenId : String) (uploadResult : Except Unit String)
    (failUser failVR failPP : Bool) : SignupResult × DB × List Effect :=
  match db.users.find? (fun u => decide (u.email = d.email)) with
  | some _ => (.failure 409 "CONFLICT" "Email already registered", db, [])
  | none =>
      if d.role = .PARENT ∧ hasFile = false then
        (.failure 415 "UNSUPPORTED_MEDIA" "ID image is required for parent accounts", db, [])
      else
        let pwHash := passwordServiceHash d.password
        let uploaded : Except Unit (Option String) :=
          if hasFile then uploadResult.map some else .ok none
        match uploaded with
        | .error _ =>
            (.failure 500 "INTERNAL_ERROR" "Signup failed", db, [.hashPassword, .uploadFile])
        | .ok idImageUrl =>
            let preEffects := Effect.hashPassword :: (if hasFile then [Effect.uploadFile] else [])
            match signupTx db d pwHash idImageUrl now newUserId newVrId failUser failVR failPP with
            | .error _ => (.failure 500 "INTERNAL_ERROR" "Signup failed", db, preEffects)
            | .ok (db1, user, vr) =>
                let tok := generateTokenPair db1 now newTokenId user.id user.email user.role
                let mails := if d.role = .PARENT then
                    (if hasFile then [Effect.emailSent, Effect.emailSent] else [Effect.emailSent])
                  else [Effect.emailSent]
                (.success 201 ⟨user.id, user.email, user.name, user.role, vr.status,
                    tok.1.accessToken, tok.1.refreshToken⟩,
                 tok.2, preEffects ++ [Effect.dbWrite] ++ mails)

/-- A verified OAuth provider payload (`verifyGoogleToken` /
`verifyAppleToken` output): subject, optional email and display name. -/
structure OAuthPayload where
  sub : String
  email : Option String
  name : Option String
deriving DecidableEq, Repr

inductive OAuthFailure where
  | missingEmail
  | internalErr
deriving DecidableEq, Repr

/-- Result of the account-resolution phase of `AuthController.oauth`: the
resolved user, the `isNewUser` flag, and the store after any link/row
creation. -/
structure ResolvedOAuth where
  user : User
  isNewUser : Bool
  db : DB
deriving DecidableEq, Repr

/-- `oauthPayload.email.split("@")[0]`. -/
def emailLocalPart (email : String) : String :=
  (email.splitOn "@").headD email

/-- The user row created on the OAuth new-account path: OAuth-only (no
password hash), default role PARENT. -/
def newOAuthUser (email : String) (pl : OAuthPayload) (newUserId : String) (now : Nat) : User :=
  ⟨newUserId, email, pl.name.getD (emailLocalPart email), none, .PARENT, now, none⟩

/-- The account-resolution phase of `AuthController.oauth`
(auth.controller.ts:281-372): reject a payload with no email; else use the
existing (provider, sub) link, else link to the user found by email, else
atomically create a new PARENT user, the link, and a PENDING verification
request.  A link row whose user is missing (impossible under the foreign
key) is mapped to `internalErr`. -/
def resolveOAuthUser (db : DB) (prov : Provider) (pl : OAuthPayload)
    (newUserId newVrId : String) (now : Nat) : Except OAuthFailure ResolvedOAuth :=
  match pl.email with
  | none => .error .missingEmail
  | some email =>
      match findOAuthAccount db prov pl.sub with
      | some acc =>
          match findUserById db acc.userId with
          | some u => .ok ⟨u, false, db⟩
          | none => .error .internalErr
      | none =>
          match db.users.find? (fun u => decide (u.email = email)) with
          | some u =>
              .ok ⟨u, false,
                { db with oauthAccounts := db.oauthAccounts ++ [⟨prov, pl.sub, u.id⟩] }⟩
          | none =>
              let user := newOAuthUser email pl newUserId now
              let vr : VerificationRequest := ⟨newVrId, newUserId, .PARENT, .PENDING, none, now⟩
              .ok ⟨user, true,
                { db with
                    users := db.users ++ [user],
                    oauthAccounts := db.oauthAccounts ++ [⟨prov, pl.sub, newUserId⟩],
                    verificationRequests := db.verificationRequests ++ [vr] }⟩

/-- `verificationRequests orderBy createdAt desc take 1` for a user: the
stored request with the greatest `createdAt` (first-inserted wins ties, as a
stable descending sort does). -/
def latestVr (db : DB) (uid : String) : Option VerificationRequest :=
  db.verificationRequests.foldl
    (fun acc v =>
      if v.userId = uid then
        match acc with
        | none => some v
        | some w => if w.createdAt < v.createdAt then some v else some w
      else acc) none

/-- `user.verificationRequests[0]?.status || "PENDING"`. -/
def latestVrStatus (db : DB) (uid : String) : VerificationStatus :=
  match latestVr db uid with
  | none => .PENDING
  | some v => v.status

/-- Outcome of `AuthController.oauth`: a 200 success carrying `isNewUser`, or
an error response. -/
inductive OAuthResult where
  | success (status : Nat) (body : AuthSuccessBody) (isNewUser : Bool)
  | failure (status : Nat) (code message : String)
deriving DecidableEq, Repr

/-- `AuthController.oauth` (auth.controller.ts:268-403), from a verified
provider payload onward: resolve the account three ways, then issue a token
pair for the resolved user and answer 200 with `isNewUser`. -/
def oauth (db : DB) (prov : Provider) (pl : OAuthPayload)
    (newUserId newVrId newTokenId : String) (now : Nat) : OAuthResult × DB :=
  match resolveOAuthUser db prov pl newUserId newVrId now with
  | .error .missingEmail =>
      (.failure 400 "BAD_REQUEST" "Email not provided by OAuth provider", db)
  | .error .internalErr =>
      (.failure 500 "INTERNAL_ERROR" "OAuth authentication failed", db)
  | .ok r =>
      let tok := generateTokenPair r.db now newTokenId r.user.id r.user.email r.user.role
      (.success 200 ⟨r.user.id, r.user.email, r.user.name, r.user.role,
          latestVrStatus db r.user.id, tok.1.accessToken, tok.1.refreshToken⟩ r.isNewUser,
       tok.2)

/-- The generic anti-enumeration message of `AuthController.forgotPassword`. -/
def forgotGenericMessage : String :=
  "If an account exists with this email, a password reset link has been sent."

/-- `AuthController.forgotPassword` (auth.controller.ts:510-565), from a
validated email onward: look the user up (excluding soft-deleted rows),
answer 200 with the generic message unconditionally, and only then — when
the user exists and has a password — send the reset mail, swallowing any
mailer failure (`sendFails`).  The store is never written. -/
def forgotPassword (db : DB) (email : String) (_now : Nat) (sendFails : Bool) :
    (Nat × String) × DB × List Effect :=
  let user? := db.users.find? (fun u => decide (u.email = email) && u.deletedAt.isNone)
  let effects : List Effect :=
    match user? with
    | some u =>
        match u.passwordHash with
        | some _ => if sendFails then [] else [.emailSent]
        | none => []
    | none => []
  ((200, forgotGenericMessage), db, effects)

/-! ## Invariants and reachability -/

/-- Ownership invariant of §3: every user has a verification request, and
every parent profile has its owning user. -/
def UserOwnershipInv (db : DB) : Prop :=
  (∀ u ∈ db.users, ∃ vr ∈ db.verificationRequests, vr.userId = u.id) ∧
  (∀ pp ∈ db.parentProfiles, ∃ u ∈ db.users, u.id = pp.userId)

/-- One signup request against the store, with arbitrary inputs, fresh ids,
upload outcome, and injected transaction failures. -/
def SignupStep (db db' : DB) : Prop :=
  ∃ d hasFile now nuid vrid tid upl f1 f2 f3,
    (signup db d hasFile now nuid vrid tid upl f1 f2 f3).2.1 = db'

/-- Stores reachable from the empty store by signup requests alone. -/
inductive SignupReachable : DB → Prop where
  | base : SignupReachable ⟨[], [], [], [], []⟩
  | step {db db' : DB} : SignupReachable db → SignupStep db db' → SignupReachable db'

/-! ## Concrete fixtures for witnesses and counterexamples -/

def dbEmpty : DB := ⟨[], [], [], [], []⟩

def aliceUser : User :=
  ⟨"u1", "alice@example.com", "Alice", some (.argon2 "pw"), .PARENT, 0, none⟩

def aliceRefreshJwt : Val := generateRefreshToken 0 ⟨"u1", "t0"⟩

def aliceTokenRecord : RefreshTokenRecord :=
  ⟨"t0", "u1", hashToken aliceRefreshJwt, refreshTtlMs, none⟩

/-- A store holding one user with one active refresh token. -/
def dbOneToken : DB := ⟨[aliceUser], [aliceTokenRecord], [], [], []⟩

/-- The same store after the token was revoked at instant 3. -/
def dbRevoked : DB :=
  ⟨[aliceUser], [{ aliceTokenRecord with revokedAt := some 3 }], [], [], []⟩

/-- The token pair minted by rotating `aliceRefreshJwt` at instant 1 with
fresh id `t1`. -/
def pairAfterRotate : TokenPair :=
  ⟨generateAccessToken 1 ⟨"u1", "alice@example.com", "PARENT"⟩,
   generateRefreshToken 1 ⟨"u1", "t1"⟩⟩

/-- `dbOneToken` after that rotation: old record revoked, new record stored. -/
def dbAfterRotate : DB :=
  ⟨[aliceUser],
   [{ aliceTokenRecord with revokedAt := some 1 },
    ⟨"t1", "u1", hashToken (generateRefreshToken 1 ⟨"u1", "t1"⟩), 1 + refreshTtlMs, none⟩],
   [], [], []⟩

/-- A soft-deleted user whose email slot is still occupied. -/
def deletedUser : User :=
  ⟨"u9", "gone@example.com", "Gone", some (.argon2 "old"), .PARENT, 0, some 10⟩

def dbDeleted : DB := ⟨[deletedUser], [], [], [], []⟩

/-- A valid PARENT signup body re-using the soft-deleted user's email. -/
def parentSignup : SignupData :=
  .parent "Eve" "gone@example.com" "secret123" "US" 2 1000 none none none

/-- A valid PARENT signup body with a fresh email. -/
def freshParentSignup : SignupData :=
  .parent "Bob" "bob@example.com" "secret123" "US" 1 900 none none none

/-- A store holding only the password user Alice, with no OAuth links. -/
def dbAlice : DB := ⟨[aliceUser], [], [], [], []⟩

/-- A verified Google payload whose email matches Alice's. -/
def googlePayload : OAuthPayload := ⟨"sub1", some "alice@example.com", some "Alice"⟩

/-- A verified Google payload whose email matches the soft-deleted user's. -/
def gonePayload : OAuthPayload := ⟨"sub9", some "gone@example.com", none⟩

/-- Decidable equality of `Except` results, so concrete runs can be checked
by `decide`. -/
instance {ε α : Type} [DecidableEq ε] [DecidableEq α] : DecidableEq (Except ε α) := fun a b =>
  match a, b with
  | .ok x, .ok y =>
      if h : x = y then .isTrue (by rw [h]) else .isFalse (by simp [h])
  | .error e, .error e' =>
      if h : e = e' then .isTrue (by rw [h]) else .isFalse (by simp [h])
  | .ok _, .error _ => .isFalse (by simp)
  | .error _, .ok _ => .isFalse (by simp)

/-! ## Helper lemmas -/

/-- A digest is never equal to the value it digests: `sha256` is a strict
constructor. -/
theorem Val.sha256_ne : ∀ v : Val, Val.sha256 v ≠ v := by
  intro v
  induction v with
  | sha256 w ih => intro h; exact ih (by injection h)
  | _ => intro h; exact Val.noConfusion h

/-- Revoking a record changes neither its `tokenHash`, its `id`, its
`userId`, nor its `expiresAt`. -/
theorem revoke_preserves_keys (r : RefreshTokenRecord) (c : Prop) [Decidable c] (now : Nat) :
    (if c then { r with revokedAt := some now } else r).tokenHash = r.tokenHash ∧
    (if c then { r with revokedAt := some now } else r).id = r.id ∧
    (if c then { r with revokedAt := some now } else r).userId = r.userId ∧
    (if c then { r with revokedAt := some now } else r).expiresAt = r.expiresAt := by
  split <;> exact ⟨rfl, rfl, rfl, rfl⟩

/-- Unpack a successful `refreshValidate`: the JWT verified, the record was
found with its user, and every terminal-state check passed. -/
theorem refreshValidate_ok_elim {db : DB} {now : Nat} {t : Val} {v : StoredTokenView}
    (h : refreshValidate db now t = .ok v) :
    (∃ q, verifyRefreshToken now t = .ok q) ∧
    findRefreshByHash db (hashToken t) = some v.record ∧
    findUserById db v.record.userId = some v.user ∧
    v.record.revokedAt = none ∧ ¬ v.record.expiresAt < now ∧ v.user.deletedAt = none := by
  unfold refreshValidate refreshLookup at h
  cases hq : verifyRefreshToken now t with
  | error e => rw [hq] at h; exact absurd h (by simp)
  | ok q =>
      rw [hq] at h
      cases hf : findRefreshByHash db (hashToken t) with
      | none => rw [hf] at h; exact absurd h (by simp)
      | some r =>
          rw [hf] at h
          simp only [Option.some_bind] at h
          cases hu : findUserById db r.userId with
          | none => rw [hu] at h; exact absurd h (by simp)
          | some u =>
              rw [hu] at h
              simp only [Option.map_some'] at h
              by_cases h1 : r.revokedAt.isSome
              · rw [if_pos h1] at h; exact absurd h (by simp)
              · rw [if_neg h1] at h
                by_cases h2 : r.expiresAt < now
                · rw [if_pos h2] at h; exact absurd h (by simp)
                · rw [if_neg h2] at h
                  by_cases h3 : u.deletedAt.isSome
                  · rw [if_pos h3] at h; exact absurd h (by simp)
                  · rw [if_neg h3] at h
                    have hv : v = ⟨r, u⟩ := by
                      injection h with h'; exact h'.symm
                    subst hv
                    exact ⟨⟨q, rfl⟩, rfl, hu, Option.not_isSome_iff_eq_none.mp h1, h2,
                      Option.not_isSome_iff_eq_none.mp h3⟩

/-- Unpack a `refreshLookup` hit into the record lookup and the user join. -/
theorem refreshLookup_some_elim {db : DB} {h : Val} {w : StoredTokenView}
    (hl : refreshLookup db h = some w) :
    findRefreshByHash db h = some w.record ∧ findUserById db w.record.userId = some w.user := by
  unfold refreshLookup at hl
  cases hf : findRefreshByHash db h with
  | none => rw [hf] at hl; exact absurd hl (by simp)
  | some r =>
      rw [hf] at hl
      simp only [Option.some_bind] at hl
      cases hu : findUserById db r.userId with
      | none => rw [hu] at hl; exact absurd hl (by simp)
      | some u =>
          rw [hu] at hl
          simp only [Option.map_some'] at hl
          have hw : w = ⟨r, u⟩ := by injection hl with h'; exact h'.symm
          subst hw
          exact ⟨rfl, hu⟩

/-- A successful `refreshTokens` run factors through its validation and
commit phases. -/
theorem refreshTokens_ok_elim {db : DB} {now : Nat} {tid : String} {t : Val}
    {p : TokenPair} {db' : DB} (h : refreshTokens db now tid t = .ok (p, db')) :
    ∃ v, refreshValidate db now t = .ok v ∧ refreshCommit db now tid v = (p, db') := by
  unfold refreshTokens at h
  cases hv : refreshValidate db now t with
  | error e => rw [hv] at h; exact absurd h (by simp [Except.map])
  | ok v =>
      rw [hv] at h
      refine ⟨v, rfl, ?_⟩
      simpa [Except.map] using h

/-- `find?` returns the designated element when the matching element is
unique. -/
theorem find?_of_mem_unique {α : Type} (p : α → Bool) (l : List α) (u : α)
    (hu : u ∈ l) (hp : p u = true) (huniq : ∀ x ∈ l, p x = true → x = u) :
    l.find? p = some u := by
  induction l with
  | nil => cases hu
  | cons a as ih =>
      rw [List.find?_cons]
      cases ha : p a with
      | true =>
          have : a = u := huniq a (List.mem_cons_self a as) ha
          rw [this]
      | false =>
          have hau : u ∈ as := by
            rcases List.mem_cons.mp hu with h' | h'
            · subst h'; rw [hp] at ha; cases ha
            · exact h'
          exact ih hau (fun x hx hpx => huniq x (List.mem_cons_of_mem a hx) hpx)

/-- After the commit phase of a rotation, looking the old token up by digest
finds its record again, now revoked at the commit instant. -/
theorem refreshLookup_commit {db : DB} {now : Nat} {t : Val} {v : StoredTokenView}
    (hv : refreshValidate db now t = .ok v) (tid : String) :
    refreshLookup (refreshCommit db now tid v).2 (hashToken t) =
      some ⟨{ v.record with revokedAt := some now }, v.user⟩ := by
  obtain ⟨-, hf, hu, -, -, -⟩ := refreshValidate_ok_elim hv
  have hfind : findRefreshByHash (refreshCommit db now tid v).2 (hashToken t) =
      some { v.record with revokedAt := some now } := by
    unfold findRefreshByHash
    have hlist : (refreshCommit db now tid v).2.refreshTokens =
        db.refreshTokens.map
          (fun r => if r.id = v.record.id then { r with revokedAt := some now } else r) ++
        [⟨tid, v.user.id, hashToken (generateRefreshToken now ⟨v.user.id, tid⟩),
          now + refreshTtlMs, none⟩] := rfl
    rw [hlist, List.find?_append, List.find?_map]
    have hpf : ((fun r : RefreshTokenRecord => decide (r.tokenHash = hashToken t)) ∘
        (fun r => if r.id = v.record.id then { r with revokedAt := some now } else r)) =
        (fun r : RefreshTokenRecord => decide (r.tokenHash = hashToken t)) := by
      funext r
      by_cases hid : r.id = v.record.id <;> simp [Function.comp, hid]
    rw [hpf]
    unfold findRefreshByHash at hf
    rw [hf]
    simp
  unfold refreshLookup
  rw [hfind]
  simp only [Option.some_bind]
  have huser : findUserById (refreshCommit db now tid v).2
      ({ v.record with revokedAt := some now } : RefreshTokenRecord).userId = some v.user := by
    show db.users.find? (fun u => decide (u.id = v.record.userId)) = some v.user
    exact hu
  rw [huser]
  simp [Option.map_some']

/-- Once one rotation has committed, any later `refreshTokens` call
presenting the same (still signature-valid) token fails with the
revoked-token error. -/
theorem refresh_after_commit_revoked {db : DB} {now : Nat} {t : Val} {v : StoredTokenView}
    (hv : refreshValidate db now t = .ok v) (tid : String) (now' : Nat)
    (hjwt : ∃ q, verifyRefreshToken now' t = .ok q) (tid' : String) :
    refreshTokens (refreshCommit db now tid v).2 now' tid' t = .error .revoked := by
  obtain ⟨q, hq⟩ := hjwt
  unfold refreshTokens refreshValidate
  rw [hq, refreshLookup_commit hv tid]
  simp [Except.map]

/-- The brand-new token issued by a rotation is itself accepted by a later
`refreshTokens` call (no digest collision, clock within the new expiry). -/
theorem refresh_new_token_ok {db : DB} {now : Nat} {t : Val} {v : StoredTokenView}
    (hv : refreshValidate db now t = .ok v) (tid : String) (now' : Nat)
    (hexp : now' ≤ now + refreshTtlMs) (tid' : String)
    (hfresh : ∀ r ∈ db.refreshTokens,
        r.tokenHash ≠ hashToken (generateRefreshToken now ⟨v.user.id, tid⟩)) :
    ∃ p2 db2, refreshTokens (refreshCommit db now tid v).2 now' tid'
        (generateRefreshToken now ⟨v.user.id, tid⟩) = .ok (p2, db2) := by
  obtain ⟨-, hf, hu, hrev, hex, hdel⟩ := refreshValidate_ok_elim hv
  have hver : verifyRefreshToken now' (generateRefreshToken now ⟨v.user.id, tid⟩) =
      .ok ⟨v.user.id, tid⟩ := by
    simp only [generateRefreshToken, verifyRefreshToken]
    rw [if_pos (by simp), if_neg (by omega)]
  have hfind : findRefreshByHash (refreshCommit db now tid v).2
      (hashToken (generateRefreshToken now ⟨v.user.id, tid⟩)) =
      some ⟨tid, v.user.id, hashToken (generateRefreshToken now ⟨v.user.id, tid⟩),
        now + refreshTtlMs, none⟩ := by
    unfold findRefreshByHash
    have hlist : (refreshCommit db now tid v).2.refreshTokens =
        db.refreshTokens.map
          (fun r => if r.id = v.record.id then { r with revokedAt := some now } else r) ++
        [⟨tid, v.user.id, hashToken (generateRefreshToken now ⟨v.user.id, tid⟩),
          now + refreshTtlMs, none⟩] := rfl
    rw [hlist, List.find?_append, List.find?_map]
    have hpf : ((fun r : RefreshTokenRecord =>
        decide (r.tokenHash = hashToken (generateRefreshToken now ⟨v.user.id, tid⟩))) ∘
        (fun r => if r.id = v.record.id then { r with revokedAt := some now } else r)) =
        (fun r : RefreshTokenRecord =>
          decide (r.tokenHash = hashToken (generateRefreshToken now ⟨v.user.id, tid⟩))) := by
      funext r
      by_cases hid : r.id = v.record.id <;> simp [Function.comp, hid]
    rw [hpf]
    have hnone : db.refreshTokens.find? (fun r : RefreshTokenRecord =>
        decide (r.tokenHash = hashToken (generateRefreshToken now ⟨v.user.id, tid⟩))) = none := by
      rw [List.find?_eq_none]
      intro r hr
      simpa using hfresh r hr
    rw [hnone]
    simp
  have huser : findUserById (refreshCommit db now tid v).2 v.user.id = some v.user := by
    have hid : v.user.id = v.record.userId := by
      unfold findUserById at hu
      simpa using List.find?_some hu
    show db.users.find? (fun u => decide (u.id = v.user.id)) = some v.user
    rw [hid]
    exact hu
  have hlook : refreshLookup (refreshCommit db now tid v).2
      (hashToken (generateRefreshToken now ⟨v.user.id, tid⟩)) =
      some ⟨⟨tid, v.user.id, hashToken (generateRefreshToken now ⟨v.user.id, tid⟩),
        now + refreshTtlMs, none⟩, v.user⟩ := by
    unfold refreshLookup
    rw [hfind]
    simp only [Option.some_bind]
    rw [huser]
    simp [Option.map_some']
  have hn : ¬ (now + refreshTtlMs < now') := by omega
  have hres : refreshTokens (refreshCommit db now tid v).2 now' tid'
      (generateRefreshToken now ⟨v.user.id, tid⟩) =
      .ok (refreshCommit (refreshCommit db now tid v).2 now' tid'
        ⟨⟨tid, v.user.id, hashToken (generateRefreshToken now ⟨v.user.id, tid⟩),
          now + refreshTtlMs, none⟩, v.user⟩) := by
    unfold refreshTokens refreshValidate
    rw [hver, hlook]
    simp [Except.map, hdel, hn]
  exact ⟨_, _, hres⟩

/-- A token whose stored record is in a terminal state (revoked or expired)
is never accepted by `refreshTokens`. -/
theorem refreshTokens_terminal {d : DB} {n : Nat} {s : String} {x : Val} {w : StoredTokenView}
    (hl : refreshLookup d (hashToken x) = some w)
    (hterm : w.record.revokedAt.isSome = true ∨ w.record.expiresAt < n) :
    ∀ pr d2, refreshTokens d n s x ≠ .ok (pr, d2) := by
  intro pr d2 hok
  obtain ⟨v, hv, -⟩ := refreshTokens_ok_elim hok
  obtain ⟨-, hf, -, hrev, hex, -⟩ := refreshValidate_ok_elim hv
  obtain ⟨hf', -⟩ := refreshLookup_some_elim hl
  rw [hf'] at hf
  have hrec : w.record = v.record := by injection hf
  rcases hterm with hterm | hterm
  · rw [hrec, hrev] at hterm; cases hterm
  · rw [hrec] at hterm; exact hex hterm

/-! ## Claim theorems -/

/-- C8: every `generateTokenPair` call persists exactly one new record, keyed
by the SHA-256 digest of the returned refresh token together with its expiry;
no field of that record equals the raw refresh token. -/
theorem C8_generateTokenPair_persists_digest_only (db : DB) (now : Nat)
    (tid uid email : String) (role : Role) :
    (generateTokenPair db now tid uid email role).2.refreshTokens =
      db.refreshTokens ++
        [⟨tid, uid, hashToken (generateTokenPair db now tid uid email role).1.refreshToken,
          now + refreshTtlMs, none⟩] ∧
    hashToken (generateTokenPair db now tid uid email role).1.refreshToken ≠
      (generateTokenPair db now tid uid email role).1.refreshToken ∧
    Val.str tid ≠ (generateTokenPair db now tid uid email role).1.refreshToken ∧
    Val.str uid ≠ (generateTokenPair db now tid uid email role).1.refreshToken := by
  refine ⟨rfl, Val.sha256_ne _, ?_, ?_⟩ <;>
    simp [generateTokenPair, generateRefreshToken]

/-- C9: the forgot-password response is the same constant 200 reply for every
store, every user-existence situation, and every mailer outcome, and the
store is never written. -/
theorem C9_forgotPassword_non_revealing (db db2 : DB) (email : String)
    (now now2 : Nat) (sf sf2 : Bool) :
    (forgotPassword db email now sf).1 = (200, forgotGenericMessage) ∧
    (forgotPassword db email now sf).2.1 = db ∧
    (forgotPassword db email now sf).1 = (forgotPassword db2 email now2 sf2).1 :=
  ⟨rfl, rfl, rfl⟩

/-- C7 counterexample: revoking the same token again at a later instant
overwrites the stored `revokedAt` timestamp, so applying `revokeRefreshToken`
twice does not leave the store in the state one application produced. -/
theorem C7_revoke_twice_counterexample :
    revokeRefreshToken (revokeRefreshToken dbOneToken 1 aliceRefreshJwt) 2 aliceRefreshJwt ≠
      revokeRefreshToken dbOneToken 1 aliceRefreshJwt := by
  decide

/-- C7 (amended): `revokeRefreshToken` never fails — an unknown token leaves
the store untouched and an already-revoked one causes no error — and
re-applying it at the same instant is a no-op; a second application at a
later instant changes at most the `revokedAt` timestamps, never which rows
exist, their keys, or their revoked/active status. -/
theorem C7_revokeRefreshToken_idempotent_amended :
    (∀ db now t, revokeRefreshToken (revokeRefreshToken db now t) now t =
        revokeRefreshToken db now t) ∧
    (∀ db now t, findRefreshByHash db (hashToken t) = none →
        revokeRefreshToken db now t = db) ∧
    (∀ db now now' t,
        (revokeRefreshToken (revokeRefreshToken db now t) now' t).users =
          (revokeRefreshToken db now t).users ∧
        (revokeRefreshToken (revokeRefreshToken db now t) now' t).refreshTokens.map
            (fun r => (r.id, r.userId, r.tokenHash, r.expiresAt, r.revokedAt.isSome)) =
          (revokeRefreshToken db now t).refreshTokens.map
            (fun r => (r.id, r.userId, r.tokenHash, r.expiresAt, r.revokedAt.isSome))) := by
  refine ⟨?_, ?_, ?_⟩
  · intro db now t
    simp only [revokeRefreshToken]
    congr 1
    rw [List.map_map]
    apply List.map_congr_left
    intro r _
    by_cases h : r.tokenHash = hashToken t <;> simp [Function.comp, h]
  · intro db now t h
    obtain ⟨us, rts, oa, vr, pp⟩ := db
    simp only [revokeRefreshToken, DB.mk.injEq, and_true, true_and]
    have hnone : ∀ r ∈ rts, ¬ r.tokenHash = hashToken t := by
      intro r hr
      have := List.find?_eq_none.mp h r hr
      simpa using this
    calc rts.map _ = rts.map id := by
          apply List.map_congr_left
          intro r hr
          simp [hnone r hr]
      _ = rts := List.map_id rts
  · intro db now now' t
    refine ⟨rfl, ?_⟩
    simp only [revokeRefreshToken, List.map_map]
    apply List.map_congr_left
    intro r _
    by_cases h : r.tokenHash = hashToken t <;> simp [Function.comp, h]

/-- C7 witness: the amended theorem applied at a concrete store with no
matching record. -/
theorem C7_revokeRefreshToken_idempotent_amended_witness :
    revokeRefreshToken dbEmpty 5 aliceRefreshJwt = dbEmpty :=
  C7_revokeRefreshToken_idempotent_amended.2.1 dbEmpty 5 aliceRefreshJwt (by decide)

/-- C1 counterexample: on a store holding one active token, the interleaving
in which both concurrent `refreshTokens` calls validate before either
commits makes both calls succeed — two winners and no `RevokedRefreshToken`
failure, contradicting the claimed conditional ("revoke only if currently
unrevoked") mutation. -/
theorem C1_refresh_race_counterexample :
    (twoConcurrentRefresh dbOneToken 1 "ta" "tb" aliceRefreshJwt).1.isOk = true ∧
    (twoConcurrentRefresh dbOneToken 1 "ta" "tb" aliceRefreshJwt).2.1.isOk = true ∧
    (twoConcurrentRefresh dbOneToken 1 "ta" "tb" aliceRefreshJwt).2.1 ≠
      Except.error RefreshError.revoked := by
  exact ⟨by decide, by decide, by decide⟩

/-- C1 (amended): the revoke step of `refreshTokens` is an unconditional
update keyed by record id, so a sequential call rotates exactly once and a
later sequential reuse of the old token fails `RevokedRefreshToken`, but two
concurrent calls whose validations both precede both commits both succeed. -/
theorem C1_refresh_revoke_unconditional_amended (db : DB) (now : Nat)
    (tid1 tid2 : String) (t : Val) (v : StoredTokenView)
    (h : refreshValidate db now t = .ok v) :
    refreshTokens db now tid1 t = .ok (refreshCommit db now tid1 v) ∧
    (∃ p1 p2 db2, twoConcurrentRefresh db now tid1 tid2 t = (.ok p1, .ok p2, db2)) ∧
    (∀ now' tid3, (∃ q, verifyRefreshToken now' t = .ok q) →
        refreshTokens (refreshCommit db now tid1 v).2 now' tid3 t = .error .revoked) := by
  refine ⟨?_, ?_, ?_⟩
  · unfold refreshTokens
    rw [h]
    rfl
  · unfold twoConcurrentRefresh
    rw [h]
    exact ⟨_, _, _, rfl⟩
  · intro now' tid3 hjwt
    exact refresh_after_commit_revoked h tid1 now' hjwt tid3

/-- C1 witness: the amended theorem applied at the concrete one-token store. -/
theorem C1_refresh_revoke_unconditional_amended_witness :
    ∃ p1 p2 db2, twoConcurrentRefresh dbOneToken 1 "ta" "tb" aliceRefreshJwt =
      (.ok p1, .ok p2, db2) :=
  (C1_refresh_revoke_unconditional_amended dbOneToken 1 "ta" "tb" aliceRefreshJwt
    ⟨aliceTokenRecord, aliceUser⟩ (by decide)).2.1

/-- C2: refresh rotation is single-use sequentially.  After a successful
`refreshTokens(T)` yielding a pair with new token T', a later call with T
fails with the revoked error, a call with T' succeeds (given a fresh digest
and a clock within the new expiry), and no token whose stored record is
revoked or expired is ever accepted. -/
theorem C2_refreshTokens_single_use
    (db : DB) (now now' : Nat) (tid tid2 tid3 : String) (t : Val)
    (p : TokenPair) (db' : DB)
    (h : refreshTokens db now tid t = .ok (p, db'))
    (hjwt : ∃ q, verifyRefreshToken now' t = .ok q)
    (hexp : now' ≤ now + refreshTtlMs)
    (hfresh : ∀ r ∈ db.refreshTokens, r.tokenHash ≠ hashToken p.refreshToken) :
    refreshTokens db' now' tid2 t = .error .revoked ∧
    (∃ p2 db2, refreshTokens db' now' tid3 p.refreshToken = .ok (p2, db2)) ∧
    (∀ (d : DB) (n : Nat) (s : String) (x : Val) (w : StoredTokenView),
        refreshLookup d (hashToken x) = some w →
        (w.record.revokedAt.isSome = true ∨ w.record.expiresAt < n) →
        ∀ pr d2, refreshTokens d n s x ≠ .ok (pr, d2)) := by
  obtain ⟨v, hv, hc⟩ := refreshTokens_ok_elim h
  have hdb : db' = (refreshCommit db now tid v).2 := by rw [hc]
  have hp : p = (refreshCommit db now tid v).1 := by rw [hc]
  refine ⟨?_, ?_, fun d n s x w hl ht => refreshTokens_terminal hl ht⟩
  · rw [hdb]
    exact refresh_after_commit_revoked hv tid now' hjwt tid2
  · rw [hdb, hp]
    exact refresh_new_token_ok hv tid now' hexp tid3
      (fun r hr => by have := hfresh r hr; rw [hp] at this; exact this)

/-- C2 witness: the single-use theorem applied at the concrete one-token
store after its rotation at instant 1. -/
theorem C2_refreshTokens_single_use_witness :
    refreshTokens dbAfterRotate 2 "t2" aliceRefreshJwt = .error .revoked :=
  (C2_refreshTokens_single_use dbOneToken 1 2 "t1" "t2" "t3" aliceRefreshJwt
    pairAfterRotate dbAfterRotate (by decide) ⟨⟨"u1", "t0"⟩, by decide⟩
    (by decide) (by decide)).1

/-- C5: `refreshTokens` applies its failure checks in source order, each with
its own error — signature first, then by digest: missing record, revoked,
expired, soft-deleted owner — and only when every check passes does it
revoke the old record and issue a brand-new pair. -/
theorem C5_refreshTokens_check_order (db : DB) (now : Nat) (tid : String) (t : Val) :
    (∀ e, verifyRefreshToken now t = .error e →
        refreshTokens db now tid t = .error e.toRefreshError) ∧
    (∀ q, verifyRefreshToken now t = .ok q →
      (refreshLookup db (hashToken t) = none →
          refreshTokens db now tid t = .error .invalidToken) ∧
      (∀ v, refreshLookup db (hashToken t) = some v →
        (∀ ts, v.record.revokedAt = some ts →
            refreshTokens db now tid t = .error .revoked) ∧
        (v.record.revokedAt = none → v.record.expiresAt < now →
            refreshTokens db now tid t = .error .expired) ∧
        (v.record.revokedAt = none → ¬ v.record.expiresAt < now →
            ∀ ds, v.user.deletedAt = some ds →
              refreshTokens db now tid t = .error .userDeleted) ∧
        (v.record.revokedAt = none → ¬ v.record.expiresAt < now →
            v.user.deletedAt = none →
            refreshTokens db now tid t =
              .ok (generateTokenPair (revokeById db now v.record.id) now tid
                    v.user.id v.user.email v.user.role)))) := by
  constructor
  · intro e he
    unfold refreshTokens refreshValidate
    rw [he]
    rfl
  · intro q hq
    constructor
    · intro hl
      unfold refreshTokens refreshValidate
      rw [hq, hl]
      rfl
    · intro v hl
      refine ⟨?_, ?_, ?_, ?_⟩
      · intro ts hts
        unfold refreshTokens refreshValidate
        rw [hq, hl]
        simp [hts, Except.map]
      · intro h0 h2
        unfold refreshTokens refreshValidate
        rw [hq, hl]
        simp [h0, h2, Except.map]
      · intro h0 h2 ds hds
        unfold refreshTokens refreshValidate
        rw [hq, hl]
        simp [h0, h2, hds, Except.map]
      · intro h0 h2 h3
        unfold refreshTokens refreshValidate
        rw [hq, hl]
        simp [h0, h2, h3, Except.map]
        rfl

/-- C5 witness: the check-order theorem applied at the one-token store whose
record was revoked at instant 3: the revoked error branch fires. -/
theorem C5_refreshTokens_check_order_witness :
    refreshTokens dbRevoked 5 "tx" aliceRefreshJwt = .error .revoked :=
  (((C5_refreshTokens_check_order dbRevoked 5 "tx" aliceRefreshJwt).2
      ⟨"u1", "t0"⟩ (by decide)).2
    ⟨{ aliceTokenRecord with revokedAt := some 3 }, aliceUser⟩ (by decide)).1 3 (by decide)

/-- C6: a signup whose email matches any existing user — soft-deleted
included, since the lookup has no `deletedAt` filter — answers Conflict 409
with no password hash computed, no upload performed, and no row written. -/
theorem C6_signup_conflict_on_registered_email
    (db : DB) (d : SignupData) (hasFile : Bool) (now : Nat)
    (nuid vrid tid : String) (upl : Except Unit String) (f1 f2 f3 : Bool)
    (u : User) (hu : u ∈ db.users) (he : u.email = d.email) :
    signup db d hasFile now nuid vrid tid upl f1 f2 f3 =
      (.failure 409 "CONFLICT" "Email already registered", db, ([] : List Effect)) := by
  have hs : (db.users.find? (fun x => decide (x.email = d.email))).isSome = true := by
    rw [List.find?_isSome]
    exact ⟨u, hu, by simp [he]⟩
  obtain ⟨w, hw⟩ := Option.isSome_iff_exists.mp hs
  unfold signup
  rw [hw]

/-- C6 witness: the conflict theorem applied at a store whose only user is
soft-deleted and whose email the signup re-uses. -/
theorem C6_signup_conflict_on_registered_email_witness :
    signup dbDeleted parentSignup true 20 "u2" "v2" "t2" (.ok "url") false false false =
      (.failure 409 "CONFLICT" "Email already registered", dbDeleted, ([] : List Effect)) :=
  C6_signup_conflict_on_registered_email dbDeleted parentSignup true 20 "u2" "v2" "t2"
    (.ok "url") false false false deletedUser (by decide) (by decide)

/-- Shape of a committed signup transaction: the user and its verification
request are appended together, the parent profile (when present) belongs to
that user, and no other table changes. -/
theorem signupTx_ok_shape {db : DB} {d : SignupData} {pwHash : Val}
    {idImageUrl : Option String} {now : Nat} {nuid vrid : String} {f1 f2 f3 : Bool}
    {db1 : DB} {user : User} {vr : VerificationRequest}
    (h : signupTx db d pwHash idImageUrl now nuid vrid f1 f2 f3 = .ok (db1, user, vr)) :
    db1.users = db.users ++ [user] ∧
    db1.verificationRequests = db.verificationRequests ++ [vr] ∧
    vr.userId = user.id ∧
    db1.refreshTokens = db.refreshTokens ∧
    db1.oauthAccounts = db.oauthAccounts ∧
    (db1.parentProfiles = db.parentProfiles ∨
      ∃ pp, db1.parentProfiles = db.parentProfiles ++ [pp] ∧ pp.userId = user.id) := by
  unfold signupTx at h
  cases f1 with
  | true => simp at h
  | false =>
      cases f2 with
      | true => simp at h
      | false =>
          cases d with
          | child nm em pw =>
              simp only [Bool.false_eq_true, if_false] at h
              obtain ⟨h1, h2, h3⟩ := by simpa using h
              subst h1 h2 h3
              exact ⟨rfl, rfl, rfl, rfl, rfl, Or.inl rfl⟩
          | parent nm em pw country nc inc rent loans notes =>
              cases f3 with
              | true => simp at h
              | false =>
                  simp only [Bool.false_eq_true, if_false] at h
                  obtain ⟨h1, h2, h3⟩ := by simpa using h
                  subst h1 h2 h3
                  exact ⟨rfl, rfl, rfl, rfl, rfl, Or.inr ⟨_, rfl, rfl⟩⟩

/-- Case analysis on a signup run: either the store is returned unchanged,
or the transaction committed and only a token-pair issuance follows. -/
theorem signup_db_cases (db : DB) (d : SignupData) (hasFile : Bool) (now : Nat)
    (nuid vrid tid : String) (upl : Except Unit String) (f1 f2 f3 : Bool) :
    (signup db d hasFile now nuid vrid tid upl f1 f2 f3).2.1 = db ∨
    ∃ db1 user vr idImageUrl,
      signupTx db d (passwordServiceHash d.password) idImageUrl now nuid vrid f1 f2 f3 =
        .ok (db1, user, vr) ∧
      (signup db d hasFile now nuid vrid tid upl f1 f2 f3).2.1 =
        (generateTokenPair db1 now tid user.id user.email user.role).2 := by
  cases hfind : db.users.find? (fun u => decide (u.email = d.email)) with
  | some w => left; simp [signup, hfind]
  | none =>
      by_cases hif : d.role = .PARENT ∧ hasFile = false
      · left; simp [signup, hfind, hif]
      · cases hasFile with
        | false =>
            have hrole : ¬ d.role = Role.PARENT := fun hr => hif ⟨hr, rfl⟩
            cases htx : signupTx db d (passwordServiceHash d.password) none
                now nuid vrid f1 f2 f3 with
            | error e => left; simp [signup, hfind, hrole, htx]
            | ok trip =>
                obtain ⟨db1, user, vr⟩ := trip
                right
                exact ⟨db1, user, vr, none, htx, by simp [signup, hfind, hrole, htx]⟩
        | true =>
            cases upl with
            | error e =>
                left
                by_cases hrole : d.role = Role.PARENT <;>
                  simp [signup, hfind, hrole, Except.map]
            | ok url =>
                cases htx : signupTx db d (passwordServiceHash d.password) (some url)
                    now nuid vrid f1 f2 f3 with
                | error e =>
                    left
                    by_cases hrole : d.role = Role.PARENT <;>
                      simp [signup, hfind, hrole, htx, Except.map]
                | ok trip =>
                    obtain ⟨db1, user, vr⟩ := trip
                    right
                    refine ⟨db1, user, vr, some url, htx, ?_⟩
                    by_cases hrole : d.role = Role.PARENT <;>
                      simp [signup, hfind, hrole, htx, Except.map]

/-- When any transaction step is forced to fail, `signupTx` throws. -/
theorem signupTx_fails {db : DB} {d : SignupData} {pwHash : Val}
    {idImageUrl : Option String} {now : Nat} {nuid vrid : String} {f1 f2 f3 : Bool}
    (hfail : f1 = true ∨ f2 = true ∨ (f3 = true ∧ SignupData.role d = .PARENT)) :
    signupTx db d pwHash idImageUrl now nuid vrid f1 f2 f3 = .error () := by
  cases f1 with
  | true => simp [signupTx]
  | false =>
      cases f2 with
      | true => simp [signupTx]
      | false =>
          rcases hfail with h | h | ⟨h, hrole⟩
          · cases h
          · cases h
          · subst h
            cases d with
            | child nm em pw => simp [SignupData.role] at hrole
            | parent nm em pw country nc inc rent loans notes => simp [signupTx]

/-- Extending a store with a user, its verification request, and optionally
its parent profile preserves the ownership invariant. -/
theorem ownership_extend {db db1 : DB} {user : User} {vr : VerificationRequest}
    (hInv : UserOwnershipInv db)
    (hus : db1.users = db.users ++ [user])
    (hvr : db1.verificationRequests = db.verificationRequests ++ [vr])
    (hown : vr.userId = user.id)
    (hpp : db1.parentProfiles = db.parentProfiles ∨
        ∃ pp, db1.parentProfiles = db.parentProfiles ++ [pp] ∧ pp.userId = user.id) :
    UserOwnershipInv db1 := by
  constructor
  · intro u hu
    rw [hus] at hu
    rw [hvr]
    rcases List.mem_append.mp hu with hmem | hmem
    · obtain ⟨w, hw, hwid⟩ := hInv.1 u hmem
      exact ⟨w, List.mem_append_left _ hw, hwid⟩
    · have : u = user := by simpa using hmem
      subst this
      exact ⟨vr, List.mem_append_right _ (by simp), hown⟩
  · intro pp hp
    rw [hus]
    rcases hpp with hsame | ⟨pp0, hlist, hppid⟩
    · rw [hsame] at hp
      obtain ⟨w, hw, hwid⟩ := hInv.2 pp hp
      exact ⟨w, List.mem_append_left _ hw, hwid⟩
    · rw [hlist] at hp
      rcases List.mem_append.mp hp with hmem | hmem
      · obtain ⟨w, hw, hwid⟩ := hInv.2 pp hmem
        exact ⟨w, List.mem_append_left _ hw, hwid⟩
      · have : pp = pp0 := by simpa using hmem
        subst this
        exact ⟨user, List.mem_append_right _ (by simp), hppid.symm⟩

/-- A signup request preserves the ownership invariant, whatever its inputs
and outcome. -/
theorem signup_preserves_ownership {db db' : DB} (hInv : UserOwnershipInv db)
    (hstep : SignupStep db db') : UserOwnershipInv db' := by
  obtain ⟨d, hasFile, now, nuid, vrid, tid, upl, f1, f2, f3, heq⟩ := hstep
  subst heq
  rcases signup_db_cases db d hasFile now nuid vrid tid upl f1 f2 f3 with h | h
  · rw [h]; exact hInv
  · obtain ⟨db1, user, vr, url, htx, hdb⟩ := h
    rw [hdb]
    obtain ⟨hus, hvr, hown, -, -, hpp⟩ := signupTx_ok_shape htx
    exact ownership_extend hInv hus hvr hown hpp

/-- C3: signup is all-or-nothing, and its invariant holds in every reachable
store.  If any create inside the transaction fails — the user row, the
verification request, or (for PARENT) the parent profile — the store is
unchanged; and every store reachable through signup satisfies: no user
without its verification request, no parent profile without its owning
user. -/
theorem C3_signup_atomicity_and_ownership :
    (∀ db d hasFile now nuid vrid tid upl (f1 f2 f3 : Bool),
        (f1 = true ∨ f2 = true ∨ (f3 = true ∧ SignupData.role d = .PARENT)) →
        (signup db d hasFile now nuid vrid tid upl f1 f2 f3).2.1 = db) ∧
    (∀ db, SignupReachable db → UserOwnershipInv db) := by
  constructor
  · intro db d hasFile now nuid vrid tid upl f1 f2 f3 hfail
    rcases signup_db_cases db d hasFile now nuid vrid tid upl f1 f2 f3 with h | h
    · exact h
    · obtain ⟨db1, user, vr, url, htx, -⟩ := h
      rw [signupTx_fails hfail] at htx
      exact absurd htx (by simp)
  · intro db h
    induction h with
    | base =>
        constructor
        · intro u hu
          simp at hu
        · intro pp hpp
          simp at hpp
    | step hreach hstep ih =>
        exact signup_preserves_ownership ih hstep

/-- C3 witness: forcing the ParentProfile create to fail leaves the
one-user store unchanged, and the empty store satisfies the invariant. -/
theorem C3_signup_atomicity_and_ownership_witness :
    (signup dbAlice freshParentSignup true 30 "u3" "v3" "t3" (.ok "url")
        false false true).2.1 = dbAlice :=
  C3_signup_atomicity_and_ownership.1 dbAlice freshParentSignup true 30 "u3" "v3" "t3"
    (.ok "url") false false true (Or.inr (Or.inr ⟨rfl, rfl⟩))

/-- With pairwise-distinct user ids, looking a member up by its id finds it. -/
theorem findUserById_of_mem {db : DB} {u : User}
    (hids : db.users.Pairwise (fun a b => a.id ≠ b.id)) (hu : u ∈ db.users) :
    findUserById db u.id = some u := by
  unfold findUserById
  apply find?_of_mem_unique _ _ _ hu (by simp)
  intro x hx hpx
  have hxid : x.id = u.id := by simpa using hpx
  by_contra hne
  have hS : Symmetric (fun a b : User => a.id ≠ b.id) := fun a b hab h => hab h.symm
  exact List.Pairwise.forall hS hids hx hu hne hxid

/-- C4: OAuth account resolution is three-way — an existing (provider, sub)
link wins and creates nothing; else an email match links a new OAuthAccount
to that user; else a new PARENT user, link, and PENDING verification request
are created — `isNewUser` holds exactly on the third path, and a repeated
login with the same (provider, sub) resolves to the same user id. -/
theorem C4_oauth_three_way_resolution
    (db : DB) (prov : Provider) (pl pl2 : OAuthPayload) (e e2 : String)
    (nuid vrid nuid2 vrid2 : String) (now now2 : Nat)
    (he : pl.email = some e) (he2 : pl2.email = some e2) (hsub : pl2.sub = pl.sub)
    (hids : db.users.Pairwise (fun a b => a.id ≠ b.id))
    (hfresh : ∀ x ∈ db.users, x.id ≠ nuid) :
    (∀ acc u, findOAuthAccount db prov pl.sub = some acc →
        findUserById db acc.userId = some u →
        resolveOAuthUser db prov pl nuid vrid now = .ok ⟨u, false, db⟩) ∧
    (findOAuthAccount db prov pl.sub = none →
      ∀ u, db.users.find? (fun x => decide (x.email = e)) = some u →
        resolveOAuthUser db prov pl nuid vrid now =
          .ok ⟨u, false,
            { db with oauthAccounts := db.oauthAccounts ++ [⟨prov, pl.sub, u.id⟩] }⟩) ∧
    (findOAuthAccount db prov pl.sub = none →
      db.users.find? (fun x => decide (x.email = e)) = none →
        resolveOAuthUser db prov pl nuid vrid now =
          .ok ⟨newOAuthUser e pl nuid now, true,
            { db with
                users := db.users ++ [newOAuthUser e pl nuid now],
                oauthAccounts := db.oauthAccounts ++ [⟨prov, pl.sub, nuid⟩],
                verificationRequests :=
                  db.verificationRequests ++ [⟨vrid, nuid, .PARENT, .PENDING, none, now⟩] }⟩) ∧
    (∀ u b db1, resolveOAuthUser db prov pl nuid vrid now = .ok ⟨u, b, db1⟩ →
        (b = true ↔ findOAuthAccount db prov pl.sub = none ∧
            db.users.find? (fun x => decide (x.email = e)) = none)) ∧
    (∀ u b db1, resolveOAuthUser db prov pl nuid vrid now = .ok ⟨u, b, db1⟩ →
        ∀ u2 b2 db2, resolveOAuthUser db1 prov pl2 nuid2 vrid2 now2 = .ok ⟨u2, b2, db2⟩ →
          u2.id = u.id) := by
  refine ⟨?_, ?_, ?_, ?_, ?_⟩
  · intro acc u hacc huser
    simp [resolveOAuthUser, he, hacc, huser]
  · intro hacc u huser
    simp [resolveOAuthUser, he, hacc, huser]
  · intro hacc huser
    simp [resolveOAuthUser, he, hacc, huser]
  · intro u b db1 hres
    cases hacc : findOAuthAccount db prov pl.sub with
    | some acc =>
        cases huid : findUserById db acc.userId with
        | some w =>
            simp [resolveOAuthUser, he, hacc, huid] at hres
            simp [hres.2.1.symm, hacc]
        | none => simp [resolveOAuthUser, he, hacc, huid] at hres
    | none =>
        cases hemail : db.users.find? (fun x => decide (x.email = e)) with
        | some w =>
            simp [resolveOAuthUser, he, hacc, hemail] at hres
            simp [hres.2.1.symm, hemail]
        | none =>
            simp [resolveOAuthUser, he, hacc, hemail] at hres
            simp [hres.2.1.symm, hacc, hemail]
  · intro u b db1 hres u2 b2 db2 hres2
    cases hacc : findOAuthAccount db prov pl.sub with
    | some acc =>
        cases huid : findUserById db acc.userId with
        | some w =>
            simp [resolveOAuthUser, he, hacc, huid] at hres
            obtain ⟨hu, -, hdb1⟩ := hres
            subst hdb1
            have : resolveOAuthUser db prov pl2 nuid2 vrid2 now2 = .ok ⟨w, false, db⟩ := by
              simp [resolveOAuthUser, he2, hsub, hacc, huid]
            rw [this] at hres2
            simp at hres2
            rw [← hres2.1, hu]
        | none => simp [resolveOAuthUser, he, hacc, huid] at hres
    | none =>
        cases hemail : db.users.find? (fun x => decide (x.email = e)) with
        | some w =>
            simp [resolveOAuthUser, he, hacc, hemail] at hres
            obtain ⟨hu, -, hdb1⟩ := hres
            subst hdb1
            have hw : w ∈ db.users := List.mem_of_find?_eq_some hemail
            have hlink : findOAuthAccount
                { db with oauthAccounts := db.oauthAccounts ++ [⟨prov, pl.sub, w.id⟩] }
                prov pl2.sub = some ⟨prov, pl.sub, w.id⟩ := by
              unfold findOAuthAccount at hacc ⊢
              simp only [List.find?_append, hsub]
              rw [hacc]
              simp
            have : resolveOAuthUser
                { db with oauthAccounts := db.oauthAccounts ++ [⟨prov, pl.sub, w.id⟩] }
                prov pl2 nuid2 vrid2 now2 =
                .ok ⟨w, false,
                  { db with oauthAccounts := db.oauthAccounts ++ [⟨prov, pl.sub, w.id⟩] }⟩ := by
              have huserid : findUserById
                  { db with oauthAccounts := db.oauthAccounts ++ [⟨prov, pl.sub, w.id⟩] }
                  w.id = some w := findUserById_of_mem hids hw
              simp [resolveOAuthUser, he2, hlink, huserid]
            rw [this] at hres2
            simp at hres2
            rw [← hres2.1, hu]
        | none =>
            simp [resolveOAuthUser, he, hacc, hemail] at hres
            obtain ⟨hu, -, hdb1⟩ := hres
            subst hdb1
            have hlink : findOAuthAccount
                { db with
                    users := db.users ++ [newOAuthUser e pl nuid now],
                    oauthAccounts := db.oauthAccounts ++ [⟨prov, pl.sub, nuid⟩],
                    verificationRequests :=
                      db.verificationRequests ++ [⟨vrid, nuid, .PARENT, .PENDING, none, now⟩] }
                prov pl2.sub = some ⟨prov, pl.sub, nuid⟩ := by
              unfold findOAuthAccount at hacc ⊢
              simp only [List.find?_append, hsub]
              rw [hacc]
              simp
            have huserid : findUserById
                { db with
                    users := db.users ++ [newOAuthUser e pl nuid now],
                    oauthAccounts := db.oauthAccounts ++ [⟨prov, pl.sub, nuid⟩],
                    verificationRequests :=
                      db.verificationRequests ++ [⟨vrid, nuid, .PARENT, .PENDING, none, now⟩] }
                nuid = some (newOAuthUser e pl nuid now) := by
              unfold findUserById
              simp only [List.find?_append]
              rw [List.find?_eq_none.mpr (fun x hx => by simpa using hfresh x hx)]
              simp [newOAuthUser]
            have : resolveOAuthUser
                { db with
                    users := db.users ++ [newOAuthUser e pl nuid now],
                    oauthAccounts := db.oauthAccounts ++ [⟨prov, pl.sub, nuid⟩],
                    verificationRequests :=
                      db.verificationRequests ++ [⟨vrid, nuid, .PARENT, .PENDING, none, now⟩] }
                prov pl2 nuid2 vrid2 now2 =
                .ok ⟨newOAuthUser e pl nuid now, false,
                  { db with
                      users := db.users ++ [newOAuthUser e pl nuid now],
                      oauthAccounts := db.oauthAccounts ++ [⟨prov, pl.sub, nuid⟩],
                      verificationRequests :=
                        db.verificationRequests ++
                          [⟨vrid, nuid, .PARENT, .PENDING, none, now⟩] }⟩ := by
              simp [resolveOAuthUser, he2, hlink, huserid]
            rw [this] at hres2
            simp at hres2
            rw [← hres2.1, hu]

/-- C4 witness: the merge path at a concrete store — Alice exists by email,
no link yet — applied through the three-way theorem. -/
theorem C4_oauth_three_way_resolution_witness :
    resolveOAuthUser dbAlice .GOOGLE googlePayload "nu" "nv" 7 =
      .ok ⟨aliceUser, false,
        { dbAlice with oauthAccounts := [⟨.GOOGLE, "sub1", "u1"⟩] }⟩ :=
  (C4_oauth_three_way_resolution dbAlice .GOOGLE googlePayload googlePayload
    "alice@example.com" "alice@example.com" "nu" "nv" "nu2" "nv2" 7 8
    rfl rfl rfl (by decide) (by decide)).2.1 (by decide) aliceUser (by decide)

/-- C10: the OAuth merge path's email lookup has no `deletedAt` filter, so a
verified email matching a soft-deleted user (with no existing link) links a
new OAuthAccount to that soft-deleted user, issues a token pair for them,
and reports `isNewUser = false` — no rejection, no fresh account. -/
theorem C10_oauth_merge_links_soft_deleted
    (db : DB) (prov : Provider) (pl : OAuthPayload) (e : String)
    (nuid vrid tid : String) (now dts : Nat) (u : User)
    (he : pl.email = some e)
    (hno : findOAuthAccount db prov pl.sub = none)
    (hu : db.users.find? (fun x => decide (x.email = e)) = some u)
    (hdel : u.deletedAt = some dts) :
    ∃ body : AuthSuccessBody,
      (oauth db prov pl nuid vrid tid now).1 = .success 200 body false ∧
      body.userId = u.id ∧
      (oauth db prov pl nuid vrid tid now).2.users = db.users ∧
      (oauth db prov pl nuid vrid tid now).2.oauthAccounts =
        db.oauthAccounts ++ [⟨prov, pl.sub, u.id⟩] ∧
      ∃ stored, (oauth db prov pl nuid vrid tid now).2.refreshTokens =
        db.refreshTokens ++ [stored] ∧ stored.userId = u.id := by
  have hres : resolveOAuthUser db prov pl nuid vrid now =
      .ok ⟨u, false,
        { db with oauthAccounts := db.oauthAccounts ++ [⟨prov, pl.sub, u.id⟩] }⟩ := by
    simp [resolveOAuthUser, he, hno, hu]
  have hoauth : oauth db prov pl nuid vrid tid now =
      (.success 200
        ⟨u.id, u.email, u.name, u.role, latestVrStatus db u.id,
          (generateTokenPair
              { db with oauthAccounts := db.oauthAccounts ++ [⟨prov, pl.sub, u.id⟩] }
              now tid u.id u.email u.role).1.accessToken,
          (generateTokenPair
              { db with oauthAccounts := db.oauthAccounts ++ [⟨prov, pl.sub, u.id⟩] }
              now tid u.id u.email u.role).1.refreshToken⟩ false,
       (generateTokenPair
          { db with oauthAccounts := db.oauthAccounts ++ [⟨prov, pl.sub, u.id⟩] }
          now tid u.id u.email u.role).2) := by
    simp [oauth, hres]
  refine ⟨⟨u.id, u.email, u.name, u.role, latestVrStatus db u.id,
      (generateTokenPair
          { db with oauthAccounts := db.oauthAccounts ++ [⟨prov, pl.sub, u.id⟩] }
          now tid u.id u.email u.role).1.accessToken,
      (generateTokenPair
          { db with oauthAccounts := db.oauthAccounts ++ [⟨prov, pl.sub, u.id⟩] }
          now tid u.id u.email u.role).1.refreshToken⟩, ?_, rfl, ?_, ?_, ?_⟩
  · rw [hoauth]
  · rw [hoauth]; rfl
  · rw [hoauth]; rfl
  · refine ⟨⟨tid, u.id,
      hashToken ((generateTokenPair
          { db with oauthAccounts := db.oauthAccounts ++ [⟨prov, pl.sub, u.id⟩] }
          now tid u.id u.email u.role).1.refreshToken),
      now + refreshTtlMs, none⟩, ?_, rfl⟩
    rw [hoauth]
    rfl

/-- C10 witness: the soft-deleted merge theorem applied at a store whose
only user is soft-deleted. -/
theorem C10_oauth_merge_links_soft_deleted_witness :
    ∃ body : AuthSuccessBody,
      (oauth dbDeleted .GOOGLE gonePayload "nu" "nv" "nt" 40).1 = .success 200 body false ∧
      body.userId = deletedUser.id ∧
      (oauth dbDeleted .GOOGLE gonePayload "nu" "nv" "nt" 40).2.users = dbDeleted.users ∧
      (oauth dbDeleted .GOOGLE gonePayload "nu" "nv" "nt" 40).2.oauthAccounts =
        dbDeleted.oauthAccounts ++ [⟨.GOOGLE, "sub9", deletedUser.id⟩] ∧
      ∃ stored, (oauth dbDeleted .GOOGLE gonePayload "nu" "nv" "nt" 40).2.refreshTokens =
        dbDeleted.refreshTokens ++ [stored] ∧ stored.userId = deletedUser.id :=
  C10_oauth_merge_links_soft_deleted dbDeleted .GOOGLE gonePayload "gone@example.com"
    "nu" "nv" "nt" 40 10 deletedUser rfl (by decide) (by decide) (by decide)

end FinWise
